import Mathlib

/-!
Verification of the fetch-retry-extract-render pipeline of
`devto_top_month_rss.py` (a DEV.to top-articles RSS generator).

Strings are modelled as `List Char`.  HTML documents are modelled as the
node tree that `BeautifulSoup` produces (the parser itself is external to
the repository); JSON values, the JSON parser (`json.load`) and the
pretty-printer (`json.dump(..., indent=2, sort_keys=True)`) are modelled
concretely, with JSON numbers restricted to integers (the only numbers the
program stores are article ids).
-/

namespace Devto

/-- Strings are lists of characters throughout the model. -/
abbrev Str := List Char

/-- Coerce a Lean string literal to the model's string type. -/
def lit (s : String) : Str := s.data

/-- Whitespace characters recognised by Python's `str.strip` (ASCII part). -/
def isSpace (c : Char) : Bool :=
  c = ' ' || c = '\t' || c = '\n' || c = '\x0d' || c = '\x0b' || c = '\x0c'

/-- Python `str.strip`: drop leading and trailing whitespace. -/
def strip (s : Str) : Str :=
  ((s.dropWhile isSpace).reverse.dropWhile isSpace).reverse

/-- HTML node tree, as produced by the external HTML parser: an element has
a tag name and children; text nodes carry raw strings. -/
inductive HNode where
  | text (s : Str)
  | elem (tag : Str) (children : List HNode)

/-- Parsed HTML document: a forest of nodes. -/
abbrev HDoc := List HNode

mutual

/-- Descendant text strings of a node, in document order
(`node.strings` of BeautifulSoup, before stripping). -/
def nodeTexts : HNode → List Str
  | .text s => [s]
  | .elem _ cs => forestTexts cs

/-- Descendant text strings of a forest, in document order. -/
def forestTexts : List HNode → List Str
  | [] => []
  | n :: ns => nodeTexts n ++ forestTexts ns

end

/-- Stripped, non-empty descendant strings (`node.stripped_strings`). -/
def strippedStrings (n : HNode) : List Str :=
  ((nodeTexts n).map strip).filter (fun t => !t.isEmpty)

/-- Model of `" ".join(node.stripped_strings)`: the node's collapsed text. -/
def collapseText (n : HNode) : Str :=
  List.intercalate (lit " ") (strippedStrings n)

/-- Tags matched by `soup.find_all(["p", "blockquote", "li"])`. -/
def targetTags : List Str := [lit "p", lit "blockquote", lit "li"]

mutual

/-- Elements of the given node (itself included) whose tag is a target
tag, in document (preorder) order — `find_all` on a single node. -/
def nodeFind : HNode → List HNode
  | .text _ => []
  | .elem tag cs =>
      (if tag ∈ targetTags then [HNode.elem tag cs] else []) ++ forestFind cs

/-- Elements of a forest whose tag is a target tag, in document order —
model of `soup.find_all(["p", "blockquote", "li"])`. -/
def forestFind : List HNode → List HNode
  | [] => []
  | n :: ns => nodeFind n ++ forestFind ns

end

/-- Main collection loop of `extract_paragraphs`: walk the matched nodes,
skip those whose collapsed text is empty, append the rest, and break as
soon as 20 snippets are collected.  The accumulator is kept reversed. -/
def collectSnippets : List HNode → List Str → List Str
  | [], acc => acc.reverse
  | n :: rest, acc =>
      let t := collapseText n
      if t.isEmpty then collectSnippets rest acc
      else if 20 ≤ acc.length + 1 then (t :: acc).reverse
      else collectSnippets rest (t :: acc)

/-- Fixed placeholder appended when fewer than 2 snippets are available. -/
def unavailableMsg : Str := lit "Top DEV.to article snippet unavailable."

/-- Fixed placeholder appended when the article was truncated at 20. -/
def readMoreMsg : Str := lit "Read the rest of the article at the source."

/-- Statement `if len(paragraphs) < 2 and fallback_text: paragraphs.append(
fallback_text)` — `fallback_text` is truthy when present and non-empty. -/
def fbStep (fallback : Option Str) (ps : List Str) : List Str :=
  match fallback with
  | some f => if ps.length < 2 ∧ ¬f.isEmpty then ps ++ [f] else ps
  | none => ps

/-- Statement `if len(paragraphs) < 2: paragraphs.append(...)`. -/
def unavailStep (ps : List Str) : List Str :=
  if ps.length < 2 then ps ++ [unavailableMsg] else ps

/-- Statement `if total_paragraphs > 20 and len(paragraphs) >= 20:
paragraphs.append(...)`. -/
def truncStep (total : Nat) (ps : List Str) : List Str :=
  if 20 < total ∧ 20 ≤ ps.length then ps ++ [readMoreMsg] else ps

/-- Model of `extract_paragraphs(body_html, fallback_text)`.  The document
argument is the parsed HTML body; `fallback` is `article.get("description")`
(`none` models an absent key or `None`). -/
def extractParagraphs (doc : HDoc) (fallback : Option Str) : List Str :=
  let ps0 := collectSnippets (forestFind doc) []
  let ps1 := fbStep fallback ps0
  let ps2 := unavailStep ps1
  let total :=
    ((forestFind doc).filter (fun n => !(collapseText n).isEmpty)).length
  let ps3 := truncStep total ps2
  ps3.take 21

/-- Collapsed texts of all non-empty candidate nodes of a document, in
document order (the uncapped candidate list). -/
def candidates (doc : HDoc) : List Str :=
  ((forestFind doc).map collapseText).filter (fun t => !t.isEmpty)

/-- Python `html.escape(s)` (with its default `quote=True`): replace the
five special characters by their entity references; every other character
is kept unchanged. -/
def escapeChar (c : Char) : Str :=
  if c = '&' then lit "&amp;"
  else if c = '<' then lit "&lt;"
  else if c = '>' then lit "&gt;"
  else if c = '"' then lit "&quot;"
  else if c = '\x27' then lit "&#x27;"
  else [c]

/-- Model of `html.escape` applied to a whole string. -/
def htmlEscape (s : Str) : Str := s.flatMap escapeChar

/-- Entity tails that may legitimately follow a `&` in escaped output. -/
def isEntityTail (s : Str) : Bool :=
  (lit "amp;").isPrefixOf s || (lit "lt;").isPrefixOf s ||
    (lit "gt;").isPrefixOf s || (lit "quot;").isPrefixOf s ||
    (lit "#x27;").isPrefixOf s

/-- Scan for raw XML-special characters: `true` iff the string contains no
raw `<` or `>` and every `&` starts one of the five escape entities. -/
def noRawSpecials : Str → Bool
  | [] => true
  | '<' :: _ => false
  | '>' :: _ => false
  | '&' :: rest => isEntityTail rest && noRawSpecials rest
  | _ :: rest => noRawSpecials rest

/-- Model of `paragraphs_to_html`: wrap each escaped snippet in `<p>`. -/
def paragraphsToHtml (paragraphs : List Str) : Str :=
  (paragraphs.map (fun t => lit "<p>" ++ htmlEscape t ++ lit "</p>")).flatten

/-- Item dictionary consumed by `build_rss` (keys `title`, `link`,
`pub_date`, `content`; the `id` key is not read by the renderer). -/
structure RItem where
  title : Str
  link : Str
  pub_date : Str
  content : Str

/-- Channel constant `FEED_TITLE`. -/
def feedTitle : Str := lit "DEV.to Top Posts This Month"

/-- Channel constant `FEED_LINK`. -/
def feedLink : Str := lit "https://dev.to/top/month"

/-- Channel constant `FEED_DESCRIPTION`. -/
def feedDescription : Str := lit "Top DEV.to posts from the last 30 days."

/-- Lines appended for one item in the `for item in items` loop of
`build_rss`. -/
def itemParts (it : RItem) : List Str :=
  [ lit "    <item>",
    lit "      <title>" ++ htmlEscape it.title ++ lit "</title>",
    lit "      <link>" ++ htmlEscape it.link ++ lit "</link>",
    lit "      <guid isPermaLink=\"true\">" ++ htmlEscape it.link ++ lit "</guid>",
    lit "      <pubDate>" ++ it.pub_date ++ lit "</pubDate>",
    lit "      <description><![CDATA[" ++ it.content ++ lit "]]></description>",
    lit "      <content:encoded><![CDATA[" ++ it.content ++ lit "]]></content:encoded>",
    lit "    </item>" ]

/-- Initial `channel_parts` list of `build_rss` (`now` is the formatted
render-time timestamp). -/
def channelHeader (now : Str) : List Str :=
  [ lit "<?xml version=\"1.0\" encoding=\"UTF-8\"?>",
    lit "<rss version=\"2.0\" xmlns:content=\"http://purl.org/rss/1.0/modules/content/\">",
    lit "  <channel>",
    lit "    <title>" ++ htmlEscape feedTitle ++ lit "</title>",
    lit "    <link>" ++ htmlEscape feedLink ++ lit "</link>",
    lit "    <description>" ++ htmlEscape feedDescription ++ lit "</description>",
    lit "    <lastBuildDate>" ++ now ++ lit "</lastBuildDate>" ]

/-- The `channel_parts` list built by `build_rss`: header, then the item
loop (modelled as a left fold over the items, appending each item's lines,
exactly as the Python loop mutates `channel_parts`), then the footer. -/
def buildRssParts (now : Str) (items : List RItem) : List Str :=
  (items.foldl (fun acc it => acc ++ itemParts it) (channelHeader now)) ++
    [lit "  </channel>", lit "</rss>"]

/-- Model of `build_rss`: `"\n".join(channel_parts)`. -/
def buildRss (now : Str) (items : List RItem) : Str :=
  List.intercalate (lit "\n") (buildRssParts now items)

/-- JSON values.  Numbers are modelled as integers: the only numbers this
program reads or writes are article ids. -/
inductive Json where
  | null
  | bool (b : Bool)
  | num (i : Int)
  | str (s : Str)
  | arr (vs : List Json)
  | obj (kvs : List (Str × Json))

mutual

/-- Boolean equality of JSON values (Python `==` on parsed scalars; the
program only ever compares scalar ids). -/
def jeq : Json → Json → Bool
  | .null, .null => true
  | .bool a, .bool b => a = b
  | .num a, .num b => a = b
  | .str a, .str b => a = b
  | .arr a, .arr b => jeqList a b
  | .obj a, .obj b => jeqPairs a b
  | _, _ => false

/-- Elementwise equality of JSON arrays. -/
def jeqList : List Json → List Json → Bool
  | [], [] => true
  | a :: as, b :: bs => jeq a b && jeqList as bs
  | _, _ => false

/-- Elementwise equality of JSON object members. -/
def jeqPairs : List (Str × Json) → List (Str × Json) → Bool
  | [], [] => true
  | (k1, v1) :: as, (k2, v2) :: bs => k1 = k2 && jeq v1 v2 && jeqPairs as bs
  | _, _ => false

end

/-- Membership of a JSON value in a list, by `jeq` (models Python `in`
over the id set built from `latest_ids`). -/
def jmem (x : Json) (l : List Json) : Bool := l.any (jeq x)

/-- Lookup in a JSON object (Python `dict.get(key)`), first match. -/
def objGet : List (Str × Json) → Str → Option Json
  | [], _ => none
  | (k, v) :: kvs, key => if k = key then some v else objGet kvs key

/-- Assignment `d[key] = v` on a Python dict: replace the value in place
when the key exists, keeping its position, else append the new entry. -/
def objSet : List (Str × Json) → Str → Json → List (Str × Json)
  | [], key, v => [(key, v)]
  | (k, w) :: kvs, key, v =>
      if k = key then (key, v) :: kvs else (k, w) :: objSet kvs key v

/-- JSON whitespace characters. -/
def isJsonWs (c : Char) : Bool :=
  c = ' ' || c = '\t' || c = '\n' || c = '\x0d'

/-- Drop leading JSON whitespace. -/
def skipWs : Str → Str
  | [] => []
  | c :: cs => if isJsonWs c then skipWs cs else c :: cs

/-- Unescape one character after a backslash in a JSON string literal
(`\uXXXX` escapes are outside the modelled value range). -/
def escUnmap (e : Char) : Option Char :=
  if e = '"' then some '"'
  else if e = '\\' then some '\\'
  else if e = '/' then some '/'
  else if e = 'n' then some '\n'
  else if e = 't' then some '\t'
  else if e = 'r' then some '\x0d'
  else if e = 'b' then some '\x08'
  else if e = 'f' then some '\x0c'
  else none

/-- Parse the remainder of a JSON string literal (after the opening
quote); yields the decoded content and the input after the closing quote. -/
def pStringRest : Str → Option (Str × Str)
  | [] => none
  | '"' :: rest => some ([], rest)
  | '\\' :: e :: rest =>
      match escUnmap e with
      | some c =>
          match pStringRest rest with
          | some (s, r) => some (c :: s, r)
          | none => none
      | none => none
  | c :: rest =>
      if c = '\\' then none
      else
        match pStringRest rest with
        | some (s, r) => some (c :: s, r)
        | none => none

/-- Split off leading decimal digits. -/
def pDigits : Str → (Str × Str)
  | [] => ([], [])
  | c :: cs =>
      if c.isDigit then
        let (d, r) := pDigits cs
        (c :: d, r)
      else ([], c :: cs)

/-- Numeric value of a digit string. -/
def digitsToNat (ds : Str) : Nat :=
  ds.foldl (fun a c => a * 10 + (c.toNat - 48)) 0

/-- Parse an integer literal (optional sign, one or more digits). -/
def pInt : Str → Option (Int × Str)
  | '-' :: rest =>
      match pDigits rest with
      | ([], _) => none
      | (ds, r) => some (-(digitsToNat ds : Int), r)
  | s =>
      match pDigits s with
      | ([], _) => none
      | (ds, r) => some ((digitsToNat ds : Int), r)

mutual

/-- Recursive-descent JSON value; the fuel bounds nesting depth. -/
def pVal : Nat → Str → Option (Json × Str)
  | 0, _ => none
  | fuel + 1, s =>
      match skipWs s with
      | [] => none
      | c :: cs =>
          if c = '"' then
            match pStringRest cs with
            | some (t, r) => some (.str t, r)
            | none => none
          else if c = '[' then
            match skipWs cs with
            | ']' :: r => some (.arr [], r)
            | rest =>
                match pItems fuel rest with
                | some (vs, r) => some (.arr vs, r)
                | none => none
          else if c = '{' then
            match skipWs cs with
            | '}' :: r => some (.obj [], r)
            | rest =>
                match pMembers fuel rest with
                | some (kvs, r) => some (.obj kvs, r)
                | none => none
          else if c = 't' then
            if (lit "rue").isPrefixOf cs then some (.bool true, cs.drop 3) else none
          else if c = 'f' then
            if (lit "alse").isPrefixOf cs then some (.bool false, cs.drop 4) else none
          else if c = 'n' then
            if (lit "ull").isPrefixOf cs then some (.null, cs.drop 3) else none
          else
            match pInt (c :: cs) with
            | some (i, r) => some (.num i, r)
            | none => none

/-- Comma-separated array items up to the closing bracket. -/
def pItems : Nat → Str → Option (List Json × Str)
  | 0, _ => none
  | fuel + 1, s =>
      match pVal fuel s with
      | none => none
      | some (v, r) =>
          match skipWs r with
          | ',' :: r2 =>
              match pItems fuel r2 with
              | some (vs, r3) => some (v :: vs, r3)
              | none => none
          | ']' :: r2 => some ([v], r2)
          | _ => none

/-- Comma-separated object members up to the closing brace. -/
def pMembers : Nat → Str → Option (List (Str × Json) × Str)
  | 0, _ => none
  | fuel + 1, s =>
      match skipWs s with
      | '"' :: cs =>
          match pStringRest cs with
          | none => none
          | some (k, r) =>
              match skipWs r with
              | ':' :: r2 =>
                  match pVal fuel r2 with
                  | none => none
                  | some (v, r3) =>
                      match skipWs r3 with
                      | ',' :: r4 =>
                          match pMembers fuel r4 with
                          | some (kvs, r5) => some ((k, v) :: kvs, r5)
                          | none => none
                      | '}' :: r4 => some ([(k, v)], r4)
                      | _ => none
              | _ => none
      | _ => none

end

/-- Model of `json.load` on file contents: parse one value and require
the rest of the input to be whitespace. -/
def jsonLoads (s : Str) : Option Json :=
  match pVal (s.length + 1) s with
  | some (v, r) => if (skipWs r).isEmpty then some v else none
  | none => none

/-- Decimal digits of a natural number. -/
def natDigits (n : Nat) : Str := Nat.toDigits 10 n

/-- Decimal rendering of an integer. -/
def intStr (i : Int) : Str :=
  if i < 0 then '-' :: natDigits i.natAbs else natDigits i.natAbs

/-- Escape a character inside a serialised JSON string (control characters
and non-ASCII are outside the modelled value range). -/
def escJsonChar (c : Char) : Str :=
  if c = '\\' then lit "\\\\"
  else if c = '"' then lit "\\\""
  else [c]

/-- Serialise a JSON string literal. -/
def dumpStr (s : Str) : Str := ('"' :: s.flatMap escJsonChar) ++ ['"']

/-- Indentation of `n` spaces. -/
def indentSp (n : Nat) : Str := List.replicate n ' '

/-- Code-point lexicographic order on strings (Python `<` on `str`). -/
def strLtB : Str → Str → Bool
  | [], [] => false
  | [], _ :: _ => true
  | _ :: _, [] => false
  | a :: as, b :: bs => if a < b then true else if b < a then false else strLtB as bs

/-- Insert a rendered member into a key-sorted list of rendered members. -/
def insertPair (x : Str × Str) : List (Str × Str) → List (Str × Str)
  | [] => [x]
  | y :: ys => if strLtB x.1 y.1 then x :: y :: ys else y :: insertPair x ys

/-- Sort rendered object members by key (`sort_keys=True`). -/
def sortPairs : List (Str × Str) → List (Str × Str)
  | [] => []
  | x :: xs => insertPair x (sortPairs xs)

mutual

/-- Model of `json.dumps(v, indent=2, sort_keys=True)` at the given
current indentation level. -/
def dumpJson : Json → Nat → Str
  | .null, _ => lit "null"
  | .bool true, _ => lit "true"
  | .bool false, _ => lit "false"
  | .num i, _ => intStr i
  | .str s, _ => dumpStr s
  | .arr [], _ => lit "[]"
  | .arr (v :: vs), n =>
      (lit "[\n" ++
        List.intercalate (lit ",\n")
          ((dumpArr (v :: vs) (n + 2)).map (fun d => indentSp (n + 2) ++ d))) ++
        (lit "\n" ++ indentSp n ++ lit "]")
  | .obj [], _ => lit "{}"
  | .obj (kv :: kvs), n =>
      (lit "\x7b\n" ++
        List.intercalate (lit ",\n")
          ((sortPairs (dumpObj (kv :: kvs) (n + 2))).map
            (fun p => (indentSp (n + 2) ++ dumpStr p.1 ++ lit ": ") ++ p.2))) ++
        (lit "\n" ++ indentSp n ++ lit "\x7d")

/-- Serialise each array element. -/
def dumpArr : List Json → Nat → List Str
  | [], _ => []
  | v :: vs, n => dumpJson v n :: dumpArr vs n

/-- Serialise each object member's value, keeping its key. -/
def dumpObj : List (Str × Json) → Nat → List (Str × Str)
  | [], _ => []
  | (k, v) :: kvs, n => (k, dumpJson v n) :: dumpObj kvs n

end

/-- A UTC instant (microseconds dropped from the model). -/
structure DT where
  year : Nat
  month : Nat
  day : Nat
  hour : Nat
  minute : Nat
  second : Nat
deriving DecidableEq

/-- Two-digit zero-padded decimal. -/
def two (n : Nat) : Str :=
  if n < 10 then '0' :: natDigits n else natDigits n

/-- Four-digit zero-padded decimal. -/
def four (n : Nat) : Str :=
  let d := natDigits n
  List.replicate (4 - d.length) '0' ++ d

/-- Abbreviated month name. -/
def monthName (m : Nat) : Str :=
  ([lit "Jan", lit "Feb", lit "Mar", lit "Apr", lit "May", lit "Jun",
    lit "Jul", lit "Aug", lit "Sep", lit "Oct", lit "Nov", lit "Dec"]).getD
    (m - 1) (lit "Jan")

/-- Zeller's congruence: weekday index with 0 = Saturday. -/
def weekdayIdx (t : DT) : Nat :=
  let y := if t.month < 3 then t.year - 1 else t.year
  let m := if t.month < 3 then t.month + 12 else t.month
  let k := y % 100
  let j := y / 100
  (t.day + (13 * (m + 1)) / 5 + k + k / 4 + j / 4 + 5 * j) % 7

/-- Abbreviated weekday name. -/
def weekdayName (t : DT) : Str :=
  ([lit "Sat", lit "Sun", lit "Mon", lit "Tue", lit "Wed", lit "Thu",
    lit "Fri"]).getD (weekdayIdx t) (lit "Sat")

/-- Model of `email.utils.format_datetime` on an aware UTC datetime:
an RFC-2822 date string `Ddd, DD Mon YYYY HH:MM:SS +0000`. -/
def formatDatetime (t : DT) : Str :=
  ((((weekdayName t ++ lit ", " ++ two t.day) ++ (lit " " ++ monthName t.month)) ++
    (lit " " ++ four t.year ++ lit " ")) ++
    (two t.hour ++ lit ":" ++ two t.minute ++ lit ":" ++ two t.second)) ++
    lit " +0000"

/-- Model of `datetime.isoformat()` on an aware UTC datetime. -/
def isoFormat (t : DT) : Str :=
  ((four t.year ++ lit "-" ++ two t.month ++ lit "-" ++ two t.day) ++
    (lit "T" ++ two t.hour ++ lit ":" ++ two t.minute ++ lit ":" ++ two t.second)) ++
    lit "+00:00"

/-- One HTTP response as seen by `fetch_json`: status code, optional
`Retry-After` header value, and the decoded JSON body. -/
structure Resp where
  status : Nat
  retryAfter : Option Str
  body : Json

/-- Errors surfaced by the fetcher: `requests.HTTPError` from
`raise_for_status` (the spec's TransportError), or the final
`RuntimeError("Request failed without a response.")`. -/
inductive FetchErr where
  | http (status : Nat)
  | noResponse
deriving DecidableEq

/-- Python `str.isdigit` restricted to ASCII: non-empty, all digits. -/
def isDigitStr (s : Str) : Bool := !s.isEmpty && s.all Char.isDigit

/-- Backoff delay chosen for a 429 response at the given attempt index:
the `Retry-After` value when present and all digits, else `2 ** attempt`. -/
def backoffDelay (r : Resp) (attempt : Nat) : ℚ :=
  match r.retryAfter with
  | some s => if isDigitStr s then (digitsToNat s : ℚ) else (2 ^ attempt : ℚ)
  | none => (2 ^ attempt : ℚ)

/-- Observable outcome of one `fetch_json` call: the returned value or
raised error, the sleeps performed (in seconds), and the number of GET
requests issued. -/
structure FetchTrace where
  result : Except FetchErr Json
  sleeps : List ℚ
  attempts : Nat

/-- Loop body of `fetch_json`.  `resp i` is the response to the `i`-th GET
and `js i` the `random.uniform(0, 1)` jitter drawn on the `i`-th attempt;
`fuel` counts the remaining iterations of `for attempt in range(retries + 1)`.
On a non-429 response, `raise_for_status` either raises (status ≥ 400) or
the JSON body is returned; on a 429, the loop sleeps `delay + jitter` and
retries.  After the loop, `raise_for_status` on the last response raises
(its status is then 429); with no response at all a `RuntimeError` is
raised. -/
def fetchGo (resp : Nat → Resp) (js : Nat → ℚ) :
    Nat → Nat → List ℚ → FetchTrace
  | i, 0, sleeps =>
      match i with
      | 0 => ⟨.error .noResponse, sleeps.reverse, 0⟩
      | j + 1 =>
          if 400 ≤ (resp j).status then
            ⟨.error (.http (resp j).status), sleeps.reverse, j + 1⟩
          else ⟨.error .noResponse, sleeps.reverse, j + 1⟩
  | i, fuel + 1, sleeps =>
      let r := resp i
      if r.status ≠ 429 then
        if 400 ≤ r.status then ⟨.error (.http r.status), sleeps.reverse, i + 1⟩
        else ⟨.ok r.body, sleeps.reverse, i + 1⟩
      else fetchGo resp js (i + 1) fuel ((backoffDelay r i + js i) :: sleeps)

/-- Model of `fetch_json(session, url, retries)`: run the attempt loop
from attempt 0 with `retries + 1` iterations available. -/
def fetchJson (resp : Nat → Resp) (js : Nat → ℚ) (retries : Nat := 3) :
    FetchTrace :=
  fetchGo resp js 0 (retries + 1) []

/-- Article summary from the top-articles list; `none` fields model
absent keys. -/
structure Summary where
  id : Int
  title : Option Str
  url : Option Str
  description : Option Str

/-- Article detail from the per-article fetch.  The body is the parsed
HTML (`detail.get("body_html", "")` parses to the empty forest when the
key is absent); timestamps model present, valid ISO-8601 values. -/
structure Detail where
  title : Option Str
  url : Option Str
  body : Option HDoc
  published_at : Option DT
  created_at : Option DT

/-- Item dictionary assembled by `collect_items` for one article.  The
link is an `Option` because `detail.get("url", article.get("url"))`
yields Python `None` when both keys are absent. -/
structure NormItem where
  id : Int
  title : Str
  link : Option Str
  pub_date : Str
  content : Str

/-- Assembly of one `NormItem` inside the loop of `collect_items`. -/
def normalizeItem (now : DT) (article : Summary) (detail : Detail) :
    NormItem :=
  let paragraphs := extractParagraphs (detail.body.getD []) article.description
  let published := detail.published_at <|> detail.created_at
  { id := article.id
    title := detail.title.getD (article.title.getD (lit "Untitled"))
    link := detail.url <|> article.url
    pub_date := formatDatetime (published.getD now)
    content := paragraphsToHtml paragraphs }

/-- Failures that abort a refresh cycle. -/
inductive LoadErr where
  | decode
  | notObject
deriving DecidableEq

/-- Cycle-fatal errors: `RuntimeError("No articles returned ...")` (the
spec's NoContentError), a state-file load failure, the `TypeError` that
`html.escape(None)` raises inside `build_rss` when an item's link is
Python `None`, and the `TypeError` that `set()` raises on a
non-iterable `latest_ids` value. -/
inductive CycleErr where
  | noContent
  | state (e : LoadErr)
  | renderLink
  | prevIds
deriving DecidableEq

/-- Model of `collect_items(session, limit, top_days)` once the network
responses are fixed: `top` is the fetched top-articles list and `details`
maps an article id to its fetched detail. -/
def collectItems (top : List Summary) (details : Int → Detail)
    (limit : Nat) (now : DT) : Except CycleErr (List NormItem) :=
  if top.isEmpty then .error .noContent
  else .ok ((top.take limit).map (fun a => normalizeItem now a (details a.id)))

/-- The two files the pipeline writes: the RSS feed and the state file.
Each holds the full contents, or `none` when the file does not exist. -/
structure FS where
  feed : Option Str
  state : Option Str
deriving DecidableEq

/-- Model of `load_state` followed by the dictionary access in `refresh`:
an absent file yields the empty dict (only `FileNotFoundError` is
caught); contents that fail to parse raise `json.JSONDecodeError`; a
non-object top-level value makes the subsequent `state.get` raise. -/
def loadStateObj : Option Str → Except LoadErr (List (Str × Json))
  | none => .ok []
  | some contents =>
      match jsonLoads contents with
      | some (.obj kvs) => .ok kvs
      | some _ => .error .notObject
      | none => .error .decode

/-- State-file key for the previous cycle's ids. -/
def latestKey : Str := lit "latest_ids"

/-- State-file key for the refresh timestamp. -/
def updatedKey : Str := lit "updated_at"

/-- New-id detection of `refresh`: current ids not in the previous set. -/
def newIdsOf (prev : List Json) (cur : List Int) : List Int :=
  cur.filter (fun i => !jmem (Json.num i) prev)

/-- Conversion of the collected items into the dicts `build_rss` escapes,
in order.  `html.escape(item['link'])` raises `TypeError` when the link
is Python `None` (both URL keys absent), so the whole render fails at the
first such item, before the feed file is opened. -/
def renderItems : List NormItem → Option (List RItem)
  | [] => some []
  | it :: rest =>
      match it.link with
      | none => none
      | some l =>
          match renderItems rest with
          | some rs => some (⟨it.title, l, it.pub_date, it.content⟩ :: rs)
          | none => none

/-- Model of `set(state.get("latest_ids", []))`: an absent key gives the
empty set; a list gives its elements; a string iterates its characters
(each a one-character string); a dict iterates its keys; a number,
boolean or `null` is not iterable and raises `TypeError`. -/
def prevIdSet : Option Json → Option (List Json)
  | none => some []
  | some (.arr xs) => some xs
  | some (.str s) => some (s.map (fun c => Json.str [c]))
  | some (.obj kvs) => some (kvs.map (fun kv => Json.str kv.1))
  | some (.num _) => none
  | some (.bool _) => none
  | some .null => none

/-- Model of one `refresh()` call with all network responses fixed:
collect the items (aborting on no content), render and write the feed
(aborting, with no file written, when a `None` link reaches
`html.escape`), load the prior state, build the previous-id set
(aborting, feed already written, when `set()` raises), compute the new
ids, overwrite the state dict's two keys and save it.  Returns the
outcome (`item count`, `new ids` — the code logs the latter) together
with the resulting file system; a raised error leaves the files as they
were at the point of the raise. -/
def refreshRun (fs : FS) (top : List Summary) (details : Int → Detail)
    (limit : Nat) (now : DT) : Except CycleErr (Nat × List Int) × FS :=
  match collectItems top details limit now with
  | .error e => (.error e, fs)
  | .ok items =>
      match renderItems items with
      | none => (.error .renderLink, fs)
      | some ritems =>
          let fs1 : FS :=
            { fs with feed := some (buildRss (formatDatetime now) ritems) }
          match loadStateObj fs1.state with
          | .error e => (.error (.state e), fs1)
          | .ok st =>
              match prevIdSet (objGet st latestKey) with
              | none => (.error .prevIds, fs1)
              | some prev =>
                  let cur : List Int := items.map (fun it => it.id)
                  let newIds := newIdsOf prev cur
                  let st1 := objSet st latestKey (Json.arr (cur.map Json.num))
                  let st2 := objSet st1 updatedKey (Json.str (isoFormat now))
                  let fs2 : FS :=
                    { fs1 with state := some (dumpJson (Json.obj st2) 0) }
                  (.ok (items.length, newIds), fs2)

/-! Helper lemmas. -/

theorem collectSnippets_eq (ns : List HNode) (acc : List Str)
    (h : acc.length < 20) :
    collectSnippets ns acc =
      acc.reverse ++
        (((ns.map collapseText).filter (fun t => !t.isEmpty)).take
          (20 - acc.length)) := by
  induction ns generalizing acc with
  | nil => simp [collectSnippets]
  | cons n rest ih =>
      by_cases ht : (collapseText n).isEmpty
      · simp [collectSnippets, ht, ih acc h]
      · have hpt : (!(collapseText n).isEmpty) = true := by simp [ht]
        by_cases h20 : 20 ≤ acc.length + 1
        · have h1 : 20 - acc.length = 1 := by omega
          simp [collectSnippets, ht, h20, h1, List.filter_cons, hpt]
        · have hacc : (collapseText n :: acc).length < 20 := by
            simp only [List.length_cons]; omega
          have hrec := ih (collapseText n :: acc) hacc
          simp only [collectSnippets]
          rw [if_neg ht, if_neg h20, hrec, List.map_cons, List.filter_cons,
            if_pos hpt]
          have hsub : 20 - acc.length = (20 - (acc.length + 1)) + 1 := by omega
          simp only [List.length_cons, hsub, List.take_succ_cons,
            List.reverse_cons, List.append_assoc, List.cons_append,
            List.nil_append]

theorem filter_map_length (l : List HNode) :
    ((l.map collapseText).filter (fun t => !t.isEmpty)).length =
      (l.filter (fun n => !(collapseText n).isEmpty)).length := by
  induction l with
  | nil => rfl
  | cons n ns ih =>
      by_cases h : (collapseText n).isEmpty <;>
        simp [List.filter_cons, h, ih]

theorem candidates_take_20 (doc : HDoc) :
    collectSnippets (forestFind doc) [] = (candidates doc).take 20 := by
  have := collectSnippets_eq (forestFind doc) [] (by simp)
  simpa [candidates] using this

theorem extractParagraphs_eq (doc : HDoc) (fb : Option Str) :
    extractParagraphs doc fb =
      (truncStep
        ((forestFind doc).filter (fun n => !(collapseText n).isEmpty)).length
        (unavailStep (fbStep fb (collectSnippets (forestFind doc) [])))).take 21 :=
  rfl

/-- Claim C1: for a body with at least 2 non-empty candidate nodes and no
fallback text, `extract_paragraphs` returns exactly the collapsed texts of
the non-empty candidate nodes in document order, capped at 20, with the
truncation placeholder appended if and only if the total number of
non-empty candidate nodes exceeds 20. -/
theorem extract_exact_no_fallback (doc : HDoc)
    (h : 2 ≤ (candidates doc).length) :
    extractParagraphs doc none =
      (candidates doc).take 20 ++
        (if 20 < (candidates doc).length then [readMoreMsg] else []) := by
  rw [extractParagraphs_eq, candidates_take_20]
  have htot :
      ((forestFind doc).filter (fun n => !(collapseText n).isEmpty)).length =
        (candidates doc).length := by
    simpa [candidates] using (filter_map_length (forestFind doc)).symm
  rw [htot]
  have hfb : fbStep none ((candidates doc).take 20) = (candidates doc).take 20 :=
    rfl
  have hun : unavailStep ((candidates doc).take 20) = (candidates doc).take 20 := by
    unfold unavailStep
    rw [if_neg]
    rw [List.length_take]
    omega
  rw [hfb, hun]
  unfold truncStep
  by_cases hgt : 20 < (candidates doc).length
  · have hcond : 20 < (candidates doc).length ∧
        20 ≤ ((candidates doc).take 20).length :=
      ⟨hgt, by rw [List.length_take]; omega⟩
    rw [if_pos hcond, if_pos hgt]
    apply List.take_of_length_le
    rw [List.length_append, List.length_take]
    simp
  · have hcond : ¬(20 < (candidates doc).length ∧
        20 ≤ ((candidates doc).take 20).length) := by
      intro ⟨h1, _⟩; exact hgt h1
    rw [if_neg hcond, if_neg hgt, List.append_nil]
    apply List.take_of_length_le
    rw [List.length_take]
    omega

/-- Witness for C1: a body of two non-empty paragraph nodes yields exactly
their texts and no placeholder. -/
theorem extract_exact_no_fallback_witness :
    2 ≤ (candidates [HNode.elem (lit "p") [.text (lit "a")],
        HNode.elem (lit "p") [.text (lit "b")]]).length ∧
      extractParagraphs [HNode.elem (lit "p") [.text (lit "a")],
          HNode.elem (lit "p") [.text (lit "b")]] none = [lit "a", lit "b"] := by
  refine ⟨by decide, ?_⟩
  rw [extract_exact_no_fallback _ (by decide)]
  decide

/-- Claim C2: `extract_paragraphs` is total and returns between 1 and 21
snippets; when fewer than 2 snippets are collected it first appends the
supplied fallback text (when present and non-empty, i.e. truthy) and, if
the result is still shorter than 2, the fixed unavailable-placeholder. -/
theorem extract_bounds_and_fallback (doc : HDoc) (fallback : Option Str) :
    (1 ≤ (extractParagraphs doc fallback).length ∧
      (extractParagraphs doc fallback).length ≤ 21) ∧
    ((candidates doc).length < 2 →
      extractParagraphs doc fallback =
        (match fallback with
          | some f => if ¬f.isEmpty then candidates doc ++ [f] else candidates doc
          | none => candidates doc) ++
          (if ((match fallback with
                | some f =>
                    if ¬f.isEmpty then candidates doc ++ [f] else candidates doc
                | none => candidates doc)).length < 2
            then [unavailableMsg] else [])) := by
  have hfb_len : ∀ (fb : Option Str) (ps : List Str),
      ps.length ≤ (fbStep fb ps).length ∧ (fbStep fb ps).length ≤ ps.length + 1 := by
    intro fb ps
    cases fb with
    | none => simp [fbStep]
    | some f =>
        by_cases hc : ps.length < 2 ∧ ¬f.isEmpty = true
        · simp only [fbStep]; rw [if_pos hc]; simp
        · simp only [fbStep]; rw [if_neg hc]; simp
  have hun_len : ∀ ps : List Str,
      1 ≤ (unavailStep ps).length ∧ (unavailStep ps).length ≤ ps.length + 1 := by
    intro ps
    unfold unavailStep
    by_cases hc : ps.length < 2
    · rw [if_pos hc]; simp
    · rw [if_neg hc]; simp; omega
  have htr_len : ∀ (t : Nat) (ps : List Str),
      ps.length ≤ (truncStep t ps).length ∧
        (truncStep t ps).length ≤ ps.length + 1 := by
    intro t ps
    unfold truncStep
    by_cases hc : 20 < t ∧ 20 ≤ ps.length
    · rw [if_pos hc]; simp
    · rw [if_neg hc]; simp
  constructor
  · rw [extractParagraphs_eq, candidates_take_20]
    have h1 := hfb_len fallback ((candidates doc).take 20)
    have h2 := hun_len (fbStep fallback ((candidates doc).take 20))
    have h3 := htr_len
      ((forestFind doc).filter (fun n => !(collapseText n).isEmpty)).length
      (unavailStep (fbStep fallback ((candidates doc).take 20)))
    rw [List.length_take]
    omega
  · intro h
    rw [extractParagraphs_eq, candidates_take_20]
    have htake : (candidates doc).take 20 = candidates doc :=
      List.take_of_length_le (by omega)
    rw [htake]
    have htot :
        ((forestFind doc).filter (fun n => !(collapseText n).isEmpty)).length =
          (candidates doc).length := by
      simpa [candidates] using (filter_map_length (forestFind doc)).symm
    rw [htot]
    have hfb : fbStep fallback (candidates doc) =
        (match fallback with
          | some f =>
              if ¬f.isEmpty then candidates doc ++ [f] else candidates doc
          | none => candidates doc) := by
      cases fallback with
      | none => rfl
      | some f =>
          simp only [fbStep]
          by_cases hf : ¬f.isEmpty = true
          · rw [if_pos ⟨h, hf⟩, if_pos hf]
          · rw [if_neg (by tauto), if_neg hf]
    rw [hfb]
    generalize hq :
      (match fallback with
        | some f => if ¬f.isEmpty then candidates doc ++ [f] else candidates doc
        | none => candidates doc) = q
    have hqlen : q.length ≤ (candidates doc).length + 1 := by
      rw [← hq]
      cases fallback with
      | none => simp
      | some f =>
          simp only []
          split <;> simp
    have hun : unavailStep q =
        q ++ (if q.length < 2 then [unavailableMsg] else []) := by
      unfold unavailStep
      by_cases hc : q.length < 2
      · rw [if_pos hc, if_pos hc]
      · rw [if_neg hc, if_neg hc, List.append_nil]
    have hunlen : (unavailStep q).length ≤ q.length + 1 := (hun_len q).2
    have htr : truncStep (candidates doc).length (unavailStep q) =
        unavailStep q := by
      unfold truncStep
      rw [if_neg]
      intro ⟨h1, _⟩
      omega
    rw [htr, hun]
    apply List.take_of_length_le
    rw [List.length_append]
    by_cases hc : q.length < 2
    · rw [if_pos hc]; simp; omega
    · rw [if_neg hc]; simp; omega

/-- Witness for C2: an empty body with fallback `"hello"` yields exactly
the fallback followed by the unavailable-placeholder. -/
theorem extract_bounds_and_fallback_witness :
    (candidates ([] : HDoc)).length < 2 ∧
      extractParagraphs [] (some (lit "hello")) =
        [lit "hello", unavailableMsg] := by
  refine ⟨by decide, ?_⟩
  rw [(extract_bounds_and_fallback [] (some (lit "hello"))).2 (by decide)]
  decide

theorem noRaw_escapeChar (c : Char) (r : Str) (h : noRawSpecials r = true) :
    noRawSpecials (escapeChar c ++ r) = true := by
  unfold escapeChar
  by_cases h1 : c = '&'
  · simp [h1, lit, noRawSpecials, isEntityTail, List.isPrefixOf, h]
  · by_cases h2 : c = '<'
    · simp [h1, h2, lit, noRawSpecials, isEntityTail, List.isPrefixOf, h]
    · by_cases h3 : c = '>'
      · simp [h1, h2, h3, lit, noRawSpecials, isEntityTail, List.isPrefixOf, h]
      · by_cases h4 : c = '"'
        · simp [h1, h2, h3, h4, lit, noRawSpecials, isEntityTail,
            List.isPrefixOf, h]
        · by_cases h5 : c = '\x27'
          · simp [h1, h2, h3, h4, h5, lit, noRawSpecials, isEntityTail,
              List.isPrefixOf, h]
          · simp only [h1, h2, h3, h4, h5, if_false, List.cons_append,
              List.nil_append]
            rw [noRawSpecials]
            · exact h
            · exact fun hc => h2 hc
            · exact fun hc => h3 hc
            · exact fun hc => h1 hc

theorem noRaw_htmlEscape (s : Str) : noRawSpecials (htmlEscape s) = true := by
  induction s with
  | nil => rfl
  | cons c cs ih =>
      have hstep : htmlEscape (c :: cs) = escapeChar c ++ htmlEscape cs := by
        simp [htmlEscape]
      rw [hstep]
      exact noRaw_escapeChar c _ ih

theorem foldl_append_flatMap (l : List RItem) : ∀ init : List Str,
    l.foldl (fun acc it => acc ++ itemParts it) init =
      init ++ l.flatMap itemParts := by
  induction l with
  | nil => intro init; simp
  | cons it rest ih =>
      intro init
      simp only [List.foldl_cons, List.flatMap_cons]
      rw [ih]
      simp [List.append_assoc]

theorem buildRssParts_decomp (now : Str) (items : List RItem) :
    buildRssParts now items =
      channelHeader now ++ items.flatMap itemParts ++
        [lit "  </channel>", lit "</rss>"] := by
  unfold buildRssParts
  rw [foldl_append_flatMap]

/-- Claim C4: every escaped insertion into the RSS document — item titles
and links (incl. the guid) and the channel title/link/description — goes
through `html.escape`, whose output contains no raw `<` or `>` and whose
every `&` begins an escape entity; hence no raw special character from
those input strings reaches the output outside CDATA blocks or entities. -/
theorem render_escapes_fields (now : Str) (items : List RItem) :
    (∀ s : Str, noRawSpecials (htmlEscape s) = true) ∧
    buildRssParts now items =
      ([ lit "<?xml version=\"1.0\" encoding=\"UTF-8\"?>",
        lit "<rss version=\"2.0\" xmlns:content=\"http://purl.org/rss/1.0/modules/content/\">",
        lit "  <channel>",
        lit "    <title>" ++ htmlEscape feedTitle ++ lit "</title>",
        lit "    <link>" ++ htmlEscape feedLink ++ lit "</link>",
        lit "    <description>" ++ htmlEscape feedDescription ++ lit "</description>",
        lit "    <lastBuildDate>" ++ now ++ lit "</lastBuildDate>" ] ++
      items.flatMap (fun it =>
        [ lit "    <item>",
          lit "      <title>" ++ htmlEscape it.title ++ lit "</title>",
          lit "      <link>" ++ htmlEscape it.link ++ lit "</link>",
          lit "      <guid isPermaLink=\"true\">" ++ htmlEscape it.link ++ lit "</guid>",
          lit "      <pubDate>" ++ it.pub_date ++ lit "</pubDate>",
          lit "      <description><![CDATA[" ++ it.content ++ lit "]]></description>",
          lit "      <content:encoded><![CDATA[" ++ it.content ++ lit "]]></content:encoded>",
          lit "    </item>" ]) ++
      [lit "  </channel>", lit "</rss>"]) := by
  refine ⟨noRaw_htmlEscape, ?_⟩
  rw [buildRssParts_decomp]
  rfl

/-- Claim C5: each rendered item carries its content string verbatim
inside a CDATA section in both the `description` and the `content:encoded`
elements, and its entity-escaped link as a `guid` with
`isPermaLink="true"`. -/
theorem render_cdata_and_guid (now : Str) (items : List RItem) (it : RItem)
    (hit : it ∈ items) :
    (lit "      <description><![CDATA[" ++ it.content ++ lit "]]></description>")
        ∈ buildRssParts now items ∧
    (lit "      <content:encoded><![CDATA[" ++ it.content ++ lit "]]></content:encoded>")
        ∈ buildRssParts now items ∧
    (lit "      <guid isPermaLink=\"true\">" ++ htmlEscape it.link ++ lit "</guid>")
        ∈ buildRssParts now items := by
  rw [buildRssParts_decomp]
  refine ⟨?_, ?_, ?_⟩ <;>
    · apply List.mem_append_left
      apply List.mem_append_right
      apply List.mem_flatMap.mpr
      exact ⟨it, hit, by simp [itemParts]⟩

/-- Witness for C5 at a concrete one-item feed. -/
theorem render_cdata_and_guid_witness :
    (lit "      <description><![CDATA[" ++ lit "<b>hi</b>" ++ lit "]]></description>")
        ∈ buildRssParts (lit "now")
          [⟨lit "t", lit "http://a?x=1&y=2", lit "d", lit "<b>hi</b>"⟩] ∧
    (lit "      <content:encoded><![CDATA[" ++ lit "<b>hi</b>" ++ lit "]]></content:encoded>")
        ∈ buildRssParts (lit "now")
          [⟨lit "t", lit "http://a?x=1&y=2", lit "d", lit "<b>hi</b>"⟩] ∧
    (lit "      <guid isPermaLink=\"true\">" ++
        htmlEscape (lit "http://a?x=1&y=2") ++ lit "</guid>")
        ∈ buildRssParts (lit "now")
          [⟨lit "t", lit "http://a?x=1&y=2", lit "d", lit "<b>hi</b>"⟩] :=
  render_cdata_and_guid (lit "now")
    [⟨lit "t", lit "http://a?x=1&y=2", lit "d", lit "<b>hi</b>"⟩]
    ⟨lit "t", lit "http://a?x=1&y=2", lit "d", lit "<b>hi</b>"⟩
    (List.mem_singleton.mpr rfl)

theorem fetchGo_step_429 (resp : Nat → Resp) (js : Nat → ℚ) (i fuel : Nat)
    (sleeps : List ℚ) (h : (resp i).status = 429) :
    fetchGo resp js i (fuel + 1) sleeps =
      fetchGo resp js (i + 1) fuel ((backoffDelay (resp i) i + js i) :: sleeps) := by
  simp [fetchGo, h]

theorem fetchGo_stop_err (resp : Nat → Resp) (js : Nat → ℚ) (i fuel : Nat)
    (sleeps : List ℚ) (h1 : (resp i).status ≠ 429)
    (h2 : 400 ≤ (resp i).status) :
    fetchGo resp js i (fuel + 1) sleeps =
      ⟨.error (.http (resp i).status), sleeps.reverse, i + 1⟩ := by
  simp [fetchGo, h1, h2]

theorem fetchGo_stop_ok (resp : Nat → Resp) (js : Nat → ℚ) (i fuel : Nat)
    (sleeps : List ℚ) (h1 : (resp i).status ≠ 429)
    (h2 : (resp i).status < 400) :
    fetchGo resp js i (fuel + 1) sleeps =
      ⟨.ok (resp i).body, sleeps.reverse, i + 1⟩ := by
  simp [fetchGo, h1]
  omega

theorem fetchGo_exhaust (resp : Nat → Resp) (js : Nat → ℚ) (j : Nat)
    (sleeps : List ℚ) (h : 400 ≤ (resp j).status) :
    fetchGo resp js (j + 1) 0 sleeps =
      ⟨.error (.http (resp j).status), sleeps.reverse, j + 1⟩ := by
  simp [fetchGo, h]

theorem fetchGo_attempts_le (resp : Nat → Resp) (js : Nat → ℚ) :
    ∀ (fuel i : Nat) (sleeps : List ℚ),
      (fetchGo resp js i fuel sleeps).attempts ≤ i + fuel := by
  intro fuel
  induction fuel with
  | zero =>
      intro i sleeps
      match i with
      | 0 => simp [fetchGo]
      | j + 1 =>
          by_cases h : 400 ≤ (resp j).status <;> simp [fetchGo, h]
  | succ fuel ih =>
      intro i sleeps
      by_cases h : (resp i).status = 429
      · rw [fetchGo_step_429 resp js i fuel sleeps h]
        have := ih (i + 1) ((backoffDelay (resp i) i + js i) :: sleeps)
        omega
      · by_cases h2 : 400 ≤ (resp i).status
        · rw [fetchGo_stop_err resp js i fuel sleeps h h2]
          simp
        · rw [fetchGo_stop_ok resp js i fuel sleeps h (by omega)]
          simp

/-- Claim C3: `fetch_json` retries only on HTTP 429, sleeping the
server's `Retry-After` value when present and all-digits and `2 ** attempt`
seconds otherwise, plus the drawn jitter (in `[0,1)` by hypothesis); it
issues at most 4 GET requests, a non-429 error status raises immediately
with no sleeps after it, and four consecutive 429s raise the HTTP error
for status 429. -/
theorem fetch_retry_policy (resp : Nat → Resp) (js : Nat → ℚ) (k : Nat)
    (hjs : ∀ i, 0 ≤ js i ∧ js i < 1) (hk : k ≤ 3)
    (h429 : ∀ i, i < k → (resp i).status = 429) :
    (fetchJson resp js 3).attempts ≤ 4 ∧
    (∀ (r : Resp) (a : Nat),
      (r.retryAfter = none → backoffDelay r a = 2 ^ a) ∧
      (∀ s, r.retryAfter = some s → ¬isDigitStr s = true →
        backoffDelay r a = 2 ^ a) ∧
      (∀ s, r.retryAfter = some s → isDigitStr s = true →
        backoffDelay r a = digitsToNat s)) ∧
    ((resp k).status ≠ 429 → 400 ≤ (resp k).status →
      fetchJson resp js 3 =
        ⟨.error (.http ((resp k).status)),
          (List.range k).map (fun i => backoffDelay (resp i) i + js i),
          k + 1⟩) ∧
    ((resp k).status ≠ 429 → (resp k).status < 400 →
      fetchJson resp js 3 =
        ⟨.ok (resp k).body,
          (List.range k).map (fun i => backoffDelay (resp i) i + js i),
          k + 1⟩) ∧
    ((∀ i, i ≤ 3 → (resp i).status = 429) →
      fetchJson resp js 3 =
        ⟨.error (.http 429),
          (List.range 4).map (fun i => backoffDelay (resp i) i + js i),
          4⟩) := by
  refine ⟨?_, ?_, ?_, ?_, ?_⟩
  · exact fetchGo_attempts_le resp js 4 0 []
  · intro r a
    refine ⟨?_, ?_, ?_⟩
    · intro h; simp [backoffDelay, h]
    · intro s hs hd; simp [backoffDelay, hs, hd]
    · intro s hs hd; simp [backoffDelay, hs, hd]
  · intro hne h400
    unfold fetchJson
    interval_cases k
    · rw [fetchGo_stop_err resp js 0 3 [] hne h400]
      simp
    · rw [fetchGo_step_429 resp js 0 3 [] (h429 0 (by omega)),
        fetchGo_stop_err resp js 1 2 _ hne h400]
      simp [List.range_succ]
    · rw [fetchGo_step_429 resp js 0 3 [] (h429 0 (by omega)),
        fetchGo_step_429 resp js 1 2 _ (h429 1 (by omega)),
        fetchGo_stop_err resp js 2 1 _ hne h400]
      simp [List.range_succ]
    · rw [fetchGo_step_429 resp js 0 3 [] (h429 0 (by omega)),
        fetchGo_step_429 resp js 1 2 _ (h429 1 (by omega)),
        fetchGo_step_429 resp js 2 1 _ (h429 2 (by omega)),
        fetchGo_stop_err resp js 3 0 _ hne h400]
      simp [List.range_succ]
  · intro hne h400
    unfold fetchJson
    interval_cases k
    · rw [fetchGo_stop_ok resp js 0 3 [] hne h400]
      simp
    · rw [fetchGo_step_429 resp js 0 3 [] (h429 0 (by omega)),
        fetchGo_stop_ok resp js 1 2 _ hne h400]
      simp [List.range_succ]
    · rw [fetchGo_step_429 resp js 0 3 [] (h429 0 (by omega)),
        fetchGo_step_429 resp js 1 2 _ (h429 1 (by omega)),
        fetchGo_stop_ok resp js 2 1 _ hne h400]
      simp [List.range_succ]
    · rw [fetchGo_step_429 resp js 0 3 [] (h429 0 (by omega)),
        fetchGo_step_429 resp js 1 2 _ (h429 1 (by omega)),
        fetchGo_step_429 resp js 2 1 _ (h429 2 (by omega)),
        fetchGo_stop_ok resp js 3 0 _ hne h400]
      simp [List.range_succ]
  · intro hall
    unfold fetchJson
    rw [fetchGo_step_429 resp js 0 3 [] (hall 0 (by omega)),
      fetchGo_step_429 resp js 1 2 _ (hall 1 (by omega)),
      fetchGo_step_429 resp js 2 1 _ (hall 2 (by omega)),
      fetchGo_step_429 resp js 3 0 _ (hall 3 (by omega)),
      fetchGo_exhaust resp js 3 _ (by rw [hall 3 (by omega)]; omega)]
    rw [hall 3 (by omega)]
    simp [List.range_succ]

/-- Witness for C3: constant-429 responses with jitter one half exhaust
the 4 attempts and raise the 429 HTTP error after sleeping
`1.5, 2.5, 4.5, 8.5` seconds. -/
theorem fetch_retry_policy_witness :
    (∀ i : Nat, (0 : ℚ) ≤ (1 : ℚ) / 2 ∧ ((1 : ℚ) / 2 : ℚ) < 1) ∧
    fetchJson (fun _ => ⟨429, none, .null⟩) (fun _ => (1 : ℚ) / 2) 3 =
      ⟨.error (.http 429), [3 / 2, 5 / 2, 9 / 2, 17 / 2], 4⟩ := by
  constructor
  · intro i
    constructor <;> norm_num
  · rw [(fetch_retry_policy (fun _ => ⟨429, none, .null⟩)
      (fun _ => (1 : ℚ) / 2) 0 (fun _ => by constructor <;> norm_num)
      (by omega) (fun i hi => absurd hi (by omega))).2.2.2.2
      (fun i _ => rfl)]
    simp [backoffDelay, List.range_succ]
    norm_num

/-- Claim C6: when the top-articles fetch returns an empty list, the cycle
raises the no-content error and neither the feed file nor the state file
is written — the file system is exactly as before. -/
theorem refresh_no_content (fs : FS) (details : Int → Detail) (limit : Nat)
    (now : DT) :
    refreshRun fs [] details limit now = (.error .noContent, fs) ∧
    (refreshRun fs [] details limit now).2.feed = fs.feed ∧
    (refreshRun fs [] details limit now).2.state = fs.state := by
  refine ⟨rfl, ?_, ?_⟩ <;> rfl

theorem renderItems_some (items : List NormItem)
    (h : ∀ it ∈ items, it.link.isSome = true) :
    ∃ rs, renderItems items = some rs := by
  induction items with
  | nil => exact ⟨[], rfl⟩
  | cons it rest ih =>
      obtain ⟨l, hl⟩ := Option.isSome_iff_exists.mp (h it (by simp))
      obtain ⟨rs, hrs⟩ := ih (fun x hx => h x (by simp [hx]))
      exact ⟨⟨it.title, l, it.pub_date, it.content⟩ :: rs,
        by simp [renderItems, hl, hrs]⟩

/-- Witness inputs: article summaries and details used by the concrete
refresh-cycle witnesses. -/
def wSum (i : Int) : Summary := ⟨i, some (lit "T"), some (lit "http://x"), none⟩

/-- Witness inputs: a fixed article detail for every id. -/
def wDet : Int → Detail := fun _ =>
  ⟨some (lit "D"), some (lit "http://y"),
    some [HNode.elem (lit "p") [.text (lit "body")]],
    some ⟨2026, 10, 12, 0, 0, 0⟩, none⟩

/-- Witness inputs: the render/refresh instant of the second cycle. -/
def wNow : DT := ⟨2026, 10, 13, 9, 30, 0⟩

/-- Counterexample to C8 as stated: an empty (zero-byte) state file does
not yield the empty state — `json.load` raises a decode error (only
`FileNotFoundError` is caught), and the refresh cycle aborts. -/
theorem load_empty_state_errors :
    loadStateObj (some []) = .error .decode ∧
    loadStateObj (some []) ≠ .ok [] ∧
    (refreshRun ⟨none, some []⟩ [wSum 1] wDet 20 wNow).1 =
      .error (.state .decode) := by
  refine ⟨rfl, ?_, rfl⟩
  intro h
  rw [show loadStateObj (some []) = .error .decode from rfl] at h
  exact Except.noConfusion h

theorem newIdsOf_nil (cur : List Int) : newIdsOf [] cur = cur := by
  unfold newIdsOf
  simp [jmem]

/-- Claim C8 (amended): when the persisted state file is absent, loading
yields the empty state and every current-cycle identifier is reported as
new (for a cycle that completes, i.e. whose articles all resolve a link);
an empty (zero-byte) file instead raises a JSON decode error. -/
theorem load_absent_all_new (fs : FS) (top : List Summary)
    (details : Int → Detail) (limit : Nat) (now : DT)
    (habsent : fs.state = none) (htop : ¬top.isEmpty = true)
    (hlinks : ∀ a ∈ top.take limit, ((details a.id).url <|> a.url).isSome = true) :
    loadStateObj fs.state = .ok [] ∧
    (refreshRun fs top details limit now).1 =
      .ok ((top.take limit).length, (top.take limit).map (fun a => a.id)) := by
  refine ⟨by rw [habsent]; rfl, ?_⟩
  unfold refreshRun collectItems
  rw [if_neg htop]
  obtain ⟨rs, hrs⟩ := renderItems_some
    ((top.take limit).map (fun a => normalizeItem now a (details a.id)))
    (by
      intro it hit
      obtain ⟨a, ha, rfl⟩ := List.mem_map.mp hit
      exact hlinks a ha)
  simp only [hrs]
  have hst : loadStateObj
      ({ fs with feed := some (buildRss (formatDatetime now) rs) } : FS).state =
        .ok [] := by
    show loadStateObj fs.state = .ok []
    rw [habsent]
    rfl
  simp only [hst]
  have hids : ((top.take limit).map
      (fun a => normalizeItem now a (details a.id))).map (fun it => it.id) =
      (top.take limit).map (fun a => a.id) := by
    rw [List.map_map]
    rfl
  have hpv : prevIdSet (objGet ([] : List (Str × Json)) latestKey) =
      some [] := rfl
  simp only [hpv, hids, List.length_map, newIdsOf_nil]

/-- Witness for C8 (amended): a missing state file and current ids `5, 6`
reports both as new. -/
theorem load_absent_all_new_witness :
    loadStateObj (FS.mk none none).state = .ok [] ∧
    (refreshRun ⟨none, none⟩ [wSum 5, wSum 6] wDet 20 wNow).1 =
      .ok (([wSum 5, wSum 6].take 20).length,
        ([wSum 5, wSum 6].take 20).map (fun a => a.id)) :=
  load_absent_all_new ⟨none, none⟩ [wSum 5, wSum 6] wDet 20 wNow rfl (by decide)
    (by decide)

theorem formatDatetime_nonempty (t : DT) :
    ¬(formatDatetime t).isEmpty = true := by
  simp [formatDatetime, lit]

/-- Counterexample to C10 as stated: sparse or degenerate records do not
always yield non-empty fields — with both URL keys absent the link is
Python `None` (so `html.escape(None)` later raises in `build_rss`); a
present-but-empty detail URL shadows a non-empty summary URL, leaving the
link empty; and a present-but-empty detail title, or an absent detail
title over an empty summary title, leaves the title empty. -/
theorem normalize_missing_urls_counterexample :
    (normalizeItem wNow ⟨9, some (lit "T"), none, none⟩
      ⟨some (lit "D"), none, none, none, none⟩).link = none ∧
    (normalizeItem wNow ⟨9, some (lit "T"), some (lit "http://x"), none⟩
      ⟨some (lit "D"), some [], none, none, none⟩).link = some [] ∧
    (normalizeItem wNow ⟨9, some (lit "T"), some (lit "http://x"), none⟩
      ⟨some [], some (lit "http://y"), none, none, none⟩).title = [] ∧
    (normalizeItem wNow ⟨9, some [], some (lit "http://x"), none⟩
      ⟨none, some (lit "http://y"), none, none, none⟩).title = [] :=
  ⟨rfl, rfl, rfl, rfl⟩

/-- Claim C10 (amended): for every summary and detail in which every
present title or URL field is a non-empty string and at least one of the
URL keys is present, the assembled item has a non-empty title (detail
title, else summary title, else `"Untitled"`), a non-empty link (detail
URL else summary URL), and a non-empty RFC-2822 pub date (the article's
timestamp, else the current time).  When both URL keys are absent the
link is instead `None` (crashing the later render), and a present empty
field propagates.  The assembly itself is total — absence of data never
raises. -/
theorem normalize_defaults (now : DT) (a : Summary) (d : Detail)
    (hat : ∀ s, a.title = some s → ¬s.isEmpty = true)
    (hdt : ∀ s, d.title = some s → ¬s.isEmpty = true)
    (hdu : ∀ s, d.url = some s → ¬s.isEmpty = true)
    (hau : ∀ s, a.url = some s → ¬s.isEmpty = true)
    (hsome : (d.url <|> a.url).isSome = true) :
    (normalizeItem now a d).title =
        d.title.getD (a.title.getD (lit "Untitled")) ∧
    ¬(normalizeItem now a d).title.isEmpty = true ∧
    (normalizeItem now a d).link = (d.url <|> a.url) ∧
    (∃ u, (normalizeItem now a d).link = some u ∧ ¬u.isEmpty = true) ∧
    (normalizeItem now a d).pub_date =
        formatDatetime ((d.published_at <|> d.created_at).getD now) ∧
    ¬(normalizeItem now a d).pub_date.isEmpty = true := by
  refine ⟨rfl, ?_, rfl, ?_, rfl, ?_⟩
  · show ¬(d.title.getD (a.title.getD (lit "Untitled"))).isEmpty = true
    match hd : d.title with
    | some s => simpa using hdt s hd
    | none =>
        match ha : a.title with
        | some s => simpa using hat s ha
        | none => decide
  · show ∃ u, (d.url <|> a.url) = some u ∧ ¬u.isEmpty = true
    match hd : d.url with
    | some s => exact ⟨s, rfl, hdu s hd⟩
    | none =>
        obtain ⟨s, hs⟩ := Option.isSome_iff_exists.mp hsome
        rw [hd] at hs
        have hs' : a.url = some s := by rwa [Option.none_orElse] at hs
        exact ⟨s, hs, hau s hs'⟩
  · exact formatDatetime_nonempty _

/-- Witness for C10 (amended): a summary with only an id and a URL and a
fully empty detail resolve to the `"Untitled"` title, the summary URL,
and the current time. -/
theorem normalize_defaults_witness :
    (normalizeItem wNow ⟨3, none, some (lit "http://s"), none⟩
        ⟨none, none, none, none, none⟩).title =
      (none : Option Str).getD ((none : Option Str).getD (lit "Untitled")) ∧
    ¬(normalizeItem wNow ⟨3, none, some (lit "http://s"), none⟩
        ⟨none, none, none, none, none⟩).title.isEmpty = true ∧
    (normalizeItem wNow ⟨3, none, some (lit "http://s"), none⟩
        ⟨none, none, none, none, none⟩).link =
      ((none : Option Str) <|> some (lit "http://s")) ∧
    (∃ u, (normalizeItem wNow ⟨3, none, some (lit "http://s"), none⟩
        ⟨none, none, none, none, none⟩).link = some u ∧ ¬u.isEmpty = true) ∧
    (normalizeItem wNow ⟨3, none, some (lit "http://s"), none⟩
        ⟨none, none, none, none, none⟩).pub_date =
      formatDatetime (((none : Option DT) <|> none).getD wNow) ∧
    ¬(normalizeItem wNow ⟨3, none, some (lit "http://s"), none⟩
        ⟨none, none, none, none, none⟩).pub_date.isEmpty = true :=
  normalize_defaults wNow ⟨3, none, some (lit "http://s"), none⟩
    ⟨none, none, none, none, none⟩
    (fun s hs => Option.noConfusion hs)
    (fun s hs => Option.noConfusion hs)
    (fun s hs => Option.noConfusion hs)
    (fun s hs => by
      rw [← Option.some_inj.mp hs]
      decide)
    rfl

end Devto
